import Mathlib

/-
Verification of the asynchronous batching log producer (scf-framework,
src/python/scf_log): a shallow sequential embedding of `config.py` and
`producer.py`, followed by theorems about the buffer admission policy, the
chunking and retry/backoff delivery loop, the stats accounting and the
lifecycle operations.
-/

set_option maxRecDepth 8000

namespace ScfLog

/-- Embedding of `CLSConfig` (config.py, lines 14-48).  Field defaults mirror
the dataclass defaults; `source` is auto-derived from the local IP in Python
when empty, which has no effect on the producer logic and is left empty here.
`max_block_sec` is an `Int` because the code tests `max_block_sec <= 0` for
the non-blocking mode. -/
structure CLSConfig where
  topic_id : String := ""
  host : String := ""
  secret_id : String := ""
  secret_key : String := ""
  source : String := ""
  total_size_bytes : Nat := 104857600
  max_send_workers : Nat := 50
  max_block_sec : Int := 0
  max_batch_size : Nat := 5242880
  max_batch_count : Nat := 4096
  linger_ms : Nat := 2000
  retries : Nat := 10
  base_retry_backoff_ms : Nat := 100
  max_retry_backoff_ms : Nat := 50000
  field_map : Option (List (String × String)) := none

/-- Embedding of `LogEntry` (producer.py lines 35-47): timestamp, key/value
fields (the Python `dict` is modelled as an ordered association list, matching
Python dict iteration order), and the estimated size. -/
structure LogEntry where
  timestamp_us : Nat
  fields : List (String × String)
  size : Nat
deriving DecidableEq

/-- The size sum of producer.py lines 45-47: `sum(len(k) + len(v) for k, v in
self.fields.items())`.  Python `len` on `str` counts code points, embedded as
`String.length`. -/
def entrySize (fields : List (String × String)) : Nat :=
  (fields.map fun kv => kv.1.length + kv.2.length).sum

/-- Embedding of `LogEntry.__post_init__` (producer.py lines 43-47): the size
is computed only when the constructed value carries the default `size = 0`. -/
def logEntryPostInit (e : LogEntry) : LogEntry :=
  if e.size = 0 then { e with size := entrySize e.fields } else e

/-- Construction `LogEntry(timestamp_us=..., fields=...)` as used by `send`
(producer.py line 183): the `size` dataclass field keeps its default `0` and
`__post_init__` computes it. -/
def mkLogEntry (ts : Nat) (fields : List (String × String)) : LogEntry :=
  logEntryPostInit { timestamp_us := ts, fields := fields, size := 0 }

/-- Modelled from the spec words, for comparison with `entrySize` only (claim
about the entry size): "the sum of key+value byte lengths", i.e. UTF-8 byte
counts. -/
def entrySizeBytesSpec (fields : List (String × String)) : Nat :=
  (fields.map fun kv => kv.1.utf8ByteSize + kv.2.utf8ByteSize).sum

/-- Embedding of `ProducerStats` (producer.py lines 72-105); the lock only
serialises access and has no sequential observable effect. -/
structure ProducerStats where
  send_success : Nat
  send_fail : Nat
  log_count : Nat
  drop_count : Nat
deriving DecidableEq

def initStats : ProducerStats := ⟨0, 0, 0, 0⟩

/-- Embedding of `ProducerStats.incr_success` (producer.py lines 82-84). -/
def incr_success (st : ProducerStats) : ProducerStats :=
  { st with send_success := st.send_success + 1 }

/-- Embedding of `ProducerStats.incr_fail` (producer.py lines 86-88). -/
def incr_fail (st : ProducerStats) : ProducerStats :=
  { st with send_fail := st.send_fail + 1 }

/-- Embedding of `ProducerStats.incr_logs` (producer.py lines 90-92). -/
def incr_logs (n : Nat) (st : ProducerStats) : ProducerStats :=
  { st with log_count := st.log_count + n }

/-- Embedding of `ProducerStats.incr_drop` (producer.py lines 94-96). -/
def incr_drop (n : Nat) (st : ProducerStats) : ProducerStats :=
  { st with drop_count := st.drop_count + n }

/-- Sequential state of an `AsyncProducer` (producer.py lines 124-157): the
buffer, its byte counter, the closed flag and the stats.  `dispatched` and
`accepted` are ghost history fields recording, respectively, every chunk
handed to `_send_chunk` and every entry admitted by `send`; they have no
Python counterpart and are written, never read, by the operations. -/
structure ProducerState where
  buffer : List LogEntry
  buffer_size : Nat
  closed : Bool
  stats : ProducerStats
  dispatched : List (List LogEntry)
  accepted : List LogEntry
deriving DecidableEq

/-- The freshly constructed producer (producer.py lines 141-148). -/
def initState : ProducerState := ⟨[], 0, false, initStats, [], []⟩

/-- Total byte size of a list of entries. -/
def bufBytes (entries : List LogEntry) : Nat := (entries.map LogEntry.size).sum

/-- The drop path of `send` (producer.py lines 190 and 202): increment the
drop counter by one and reject the entry. -/
def dropOne (s : ProducerState) : ProducerState := { s with stats := incr_drop 1 s.stats }

/-- The blocking wait loop of `send` (producer.py lines 198-205), modelled
over the sequence of `(buffer, buffer_size)` pairs the caller observes at
each wake-up; exhausting the list models the deadline elapsing (line 201).
Returns the observed buffer of the first wake-up at which the entry fits. -/
def blockWait (cap esize : Nat) : List (List LogEntry × Nat) → Option (List LogEntry × Nat)
  | [] => none
  | w :: rest => if cap < w.2 + esize then blockWait cap esize rest else some w

/-- Embedding of `AsyncProducer.send` (producer.py lines 163-215).  The
Python method consults the wall clock for a default timestamp, so the
timestamp is a parameter here.  `wakes` feeds `blockWait` with what
concurrent drains leave in the buffer at each wake-up of the blocking
branch; the purely sequential `send` passes `[]` (no concurrent drain, so a
blocking wait can only time out). -/
def sendWith (cfg : CLSConfig) (s : ProducerState) (log_fields : List (String × String))
    (timestamp_us : Nat) (wakes : List (List LogEntry × Nat)) : ProducerState × Bool :=
  if s.closed then (s, false)
  else
    let entry := mkLogEntry timestamp_us log_fields
    if cfg.total_size_bytes < s.buffer_size + entry.size then
      if cfg.max_block_sec ≤ 0 then (dropOne s, false)
      else
        match blockWait cfg.total_size_bytes entry.size wakes with
        | none => (dropOne s, false)
        | some w =>
            ({ s with buffer := w.1 ++ [entry], buffer_size := w.2 + entry.size,
                      accepted := s.accepted ++ [entry] }, true)
    else
      ({ s with buffer := s.buffer ++ [entry], buffer_size := s.buffer_size + entry.size,
                accepted := s.accepted ++ [entry] }, true)

/-- `send` with no concurrent drain during a blocking wait. -/
def send (cfg : CLSConfig) (s : ProducerState) (log_fields : List (String × String))
    (timestamp_us : Nat) : ProducerState × Bool :=
  sendWith cfg s log_fields timestamp_us []

/-- Embedding of `_drain_buffer` (producer.py lines 273-286): atomically take
the entries and reset the byte counter; the `not_full` notification wakes
blocked senders, which in this sequential embedding surfaces through
`sendWith`'s `wakes` parameter. -/
def drain_buffer (s : ProducerState) : List LogEntry × ProducerState :=
  if s.buffer.isEmpty then ([], s)
  else (s.buffer, { s with buffer := [], buffer_size := 0 })

/-- Outcome of one `put_log_raw` call (producer.py line 304) as classified by
`_send_chunk`: success, a `LogException` carrying an error code and an
optional `resp_status`, or any other exception. -/
inductive SinkResult where
  | ok
  | sinkErr (error_code : String) (has_resp_status : Bool) (resp_status : Nat)
  | exc
deriving DecidableEq

/-- The retryability test of producer.py lines 312-314. -/
def retryableError (error_code : String) (has_resp_status : Bool) (resp_status : Nat) : Bool :=
  (error_code == "InternalError" || error_code == "Timeout" || error_code == "SpeedQuotaExceed")
    || (has_resp_status && decide (500 ≤ resp_status))

/-- A sink outcome that takes one of the two retry branches of `_send_chunk`
(producer.py lines 308-336): a retryable `LogException` or any non-sink
exception. -/
def failsRetryably : SinkResult → Bool
  | .ok => false
  | .sinkErr c h st => retryableError c h st
  | .exc => true

/-- A `LogException` that fails the retryability test of lines 312-314. -/
def nonRetryableSinkErr : SinkResult → Bool
  | .sinkErr c h st => !retryableError c h st
  | _ => false

/-- Observable trace of one `_send_chunk` call (producer.py lines 295-343):
how many delivery attempts ran, the backoff sleeps performed between them (in
order, in milliseconds), and whether the chunk was delivered. -/
structure ChunkTrace where
  attempts : Nat
  sleeps : List Nat
  success : Bool
deriving DecidableEq

/-- The `for attempt in range(retries + 1)` loop of `_send_chunk`
(producer.py lines 302-336), structurally recursive on the remaining
iteration count (`fuel`); `sink attempt` is the outcome of the `put_log_raw`
call of that attempt, `backoff` the current `backoff_ms` and `acc` the sleeps
performed so far, newest first.  The loop always exits by `return` or `break`
before the fuel runs out. -/
def sendChunkGo (cfg : CLSConfig) (sink : Nat → SinkResult) :
    Nat → Nat → Nat → List Nat → ChunkTrace
  | 0, attempt, _, acc => ⟨attempt, acc.reverse, false⟩
  | fuel + 1, attempt, backoff, acc =>
    match sink attempt with
    | .ok => ⟨attempt + 1, acc.reverse, true⟩
    | .sinkErr c h st =>
      if retryableError c h st = false ∨ cfg.retries ≤ attempt then
        ⟨attempt + 1, acc.reverse, false⟩
      else
        sendChunkGo cfg sink fuel (attempt + 1)
          (min (backoff * 2) cfg.max_retry_backoff_ms) (backoff :: acc)
    | .exc =>
      if cfg.retries ≤ attempt then ⟨attempt + 1, acc.reverse, false⟩
      else
        sendChunkGo cfg sink fuel (attempt + 1)
          (min (backoff * 2) cfg.max_retry_backoff_ms) (backoff :: acc)

/-- Embedding of `_send_chunk`'s control flow (producer.py lines 295-343):
start at attempt 0 with `backoff_ms = base_retry_backoff_ms` and at most
`retries + 1` iterations. -/
def send_chunk (cfg : CLSConfig) (sink : Nat → SinkResult) : ChunkTrace :=
  sendChunkGo cfg sink (cfg.retries + 1) 0 cfg.base_retry_backoff_ms []

/-- Stats effect of one `_send_chunk` call on a chunk of `n` entries
(producer.py lines 305-306 on success, line 339 on final failure). -/
def applyChunkStats (n : Nat) (t : ChunkTrace) (st : ProducerStats) : ProducerStats :=
  if t.success then incr_logs n (incr_success st) else incr_fail st

/-- The slicing loop of `_send_batch` (producer.py lines 291-292):
`entries[i : i + max_batch_count]` for `i in range(0, len(entries),
max_batch_count)`, written with the list length as structural fuel.  Python
raises `ValueError` on a zero step, so `m = 0` (which the claims exclude via
`0 < max_batch_count`) degenerates to the fuel-exhausted value. -/
def chunksOfGo (m : Nat) : Nat → List LogEntry → List (List LogEntry)
  | _, [] => []
  | 0, _ => []
  | fuel + 1, l => l.take m :: chunksOfGo m fuel (l.drop m)

/-- The chunking of `_send_batch` (producer.py lines 291-292). -/
def chunksOf (m : Nat) (l : List LogEntry) : List (List LogEntry) :=
  chunksOfGo m l.length l

/-- One iteration of `_send_batch`'s loop (producer.py lines 291-293): run
`_send_chunk` on the chunk, fold its stats effect into the state and record
the chunk in the ghost dispatch history. -/
def dispatchStep (cfg : CLSConfig) (sink : Nat → SinkResult)
    (s : ProducerState) (chunk : List LogEntry) : ProducerState :=
  { s with stats := applyChunkStats chunk.length (send_chunk cfg sink) s.stats,
           dispatched := s.dispatched ++ [chunk] }

/-- Embedding of `_send_batch` (producer.py lines 288-293): chunk first, then
deliver the chunks in order. -/
def send_batch (cfg : CLSConfig) (sink : Nat → SinkResult)
    (entries : List LogEntry) (s : ProducerState) : ProducerState :=
  (chunksOf cfg.max_batch_count entries).foldl (dispatchStep cfg sink) s

/-- Embedding of `flush` (producer.py lines 217-221). -/
def flush (cfg : CLSConfig) (sink : Nat → SinkResult) (s : ProducerState) : ProducerState :=
  let p := drain_buffer s
  if p.1.isEmpty then p.2 else send_batch cfg sink p.1 p.2

/-- Embedding of `close` (producer.py lines 223-248): early return when
already closed, otherwise set the flag and flush the remaining logs.  Waking
and joining the flush thread and the `timeout_ms` bound have no sequential
state effect, and the final log line only reads the stats snapshot. -/
def close (cfg : CLSConfig) (sink : Nat → SinkResult) (s : ProducerState) : ProducerState :=
  if s.closed then s else flush cfg sink { s with closed := true }

/-- A producer-facing operation before the final close: a `send` call or a
drain-and-dispatch pass (a `flush` call, or one iteration of the background
`_flush_loop`, producer.py lines 259-271, which acts identically on the
sequential state). -/
inductive Op where
  | send (log_fields : List (String × String)) (timestamp_us : Nat)
  | flush

/-- Run a sequence of operations from a state. -/
def runOps (cfg : CLSConfig) (sink : Nat → SinkResult) :
    ProducerState → List Op → ProducerState
  | s, [] => s
  | s, Op.send f ts :: rest => runOps cfg sink (send cfg s f ts).1 rest
  | s, Op.flush :: rest => runOps cfg sink (flush cfg sink s) rest

/-- Number of `send` calls in an operation sequence. -/
def countSends : List Op → Nat
  | [] => 0
  | Op.send _ _ :: rest => countSends rest + 1
  | Op.flush :: rest => countSends rest

/-- A sink that always accepts (the premise "the Sink never fails"). -/
def sinkOk : Nat → SinkResult := fun _ => SinkResult.ok

/-- The sequence of backoff sleeps produced by `n` consecutive retried
failures starting from backoff `b` (producer.py lines 324-325 and 335-336):
sleep the current backoff, then double it, capped at the maximum. -/
def backoffSeq (maxB : Nat) : Nat → Nat → List Nat
  | _, 0 => []
  | b, n + 1 => b :: backoffSeq maxB (min (b * 2) maxB) n

/-
Helper lemmas about the embedded operations.
-/

theorem chunksOfGo_flatten (m : Nat) (hm : 0 < m) :
    ∀ (fuel : Nat) (l : List LogEntry), l.length ≤ fuel →
      (chunksOfGo m fuel l).flatten = l := by
  intro fuel
  induction fuel with
  | zero =>
    intro l hl
    have : l = [] := List.length_eq_zero.mp (Nat.le_zero.mp hl)
    subst this
    rfl
  | succ fuel ih =>
    intro l hl
    cases l with
    | nil => rfl
    | cons a as =>
      have hdrop : ((a :: as).drop m).length ≤ fuel := by
        rw [List.length_drop]
        simp only [List.length_cons] at hl ⊢
        omega
      simp only [chunksOfGo, List.flatten_cons, ih _ hdrop, List.take_append_drop]

theorem chunksOf_flatten (m : Nat) (hm : 0 < m) (l : List LogEntry) :
    (chunksOf m l).flatten = l :=
  chunksOfGo_flatten m hm l.length l le_rfl

theorem chunksOfGo_mem_length (m : Nat) :
    ∀ (fuel : Nat) (l c : List LogEntry), c ∈ chunksOfGo m fuel l → c.length ≤ m := by
  intro fuel
  induction fuel with
  | zero =>
    intro l c hc
    cases l <;> simp [chunksOfGo] at hc
  | succ fuel ih =>
    intro l c hc
    cases l with
    | nil => simp [chunksOfGo] at hc
    | cons a as =>
      simp only [chunksOfGo, List.mem_cons] at hc
      rcases hc with h | h
      · subst h
        rw [List.length_take]
        exact Nat.min_le_left _ _
      · exact ih _ _ h

theorem chunksOf_mem_length (m : Nat) (l c : List LogEntry)
    (hc : c ∈ chunksOf m l) : c.length ≤ m :=
  chunksOfGo_mem_length m l.length l c hc

theorem blockWait_mem (cap esize : Nat) :
    ∀ (ws : List (List LogEntry × Nat)) (w : List LogEntry × Nat),
      blockWait cap esize ws = some w → w ∈ ws := by
  intro ws
  induction ws with
  | nil => intro w h; simp [blockWait] at h
  | cons a rest ih =>
    intro w h
    by_cases hc : cap < a.2 + esize
    · rw [blockWait, if_pos hc] at h
      exact List.mem_cons_of_mem _ (ih _ h)
    · rw [blockWait, if_neg hc] at h
      cases h
      exact List.mem_cons_self _ _

theorem blockWait_none_of_oversize (cap esize : Nat) (h : cap < esize) :
    ∀ ws, blockWait cap esize ws = none := by
  intro ws
  induction ws with
  | nil => rfl
  | cons a rest ih =>
    have hc : cap < a.2 + esize := by omega
    rw [blockWait, if_pos hc]
    exact ih

theorem backoffSeq_length (maxB : Nat) (n : Nat) :
    ∀ b, (backoffSeq maxB b n).length = n := by
  induction n with
  | zero => intro b; rfl
  | succ n ih => intro b; simp [backoffSeq, ih]

theorem backoffSeq_getD (maxB : Nat) (n : Nat) :
    ∀ (b k : Nat), b ≤ maxB → k < n →
      (backoffSeq maxB b n).getD k 0 = min (b * 2 ^ k) maxB := by
  induction n with
  | zero => intro b k _ hk; omega
  | succ n ih =>
    intro b k hb hk
    cases k with
    | zero =>
      simp only [backoffSeq, List.getD_cons_zero, pow_zero, mul_one]
      exact (Nat.min_eq_left hb).symm
    | succ k =>
      have hb2 : min (b * 2) maxB ≤ maxB := Nat.min_le_right _ _
      have hk' : k < n := by omega
      simp only [backoffSeq, List.getD_cons_succ]
      rw [ih (min (b * 2) maxB) k hb2 hk']
      rcases Nat.le_total (b * 2) maxB with h | h
      · rw [Nat.min_eq_left h]
        congr 1
        ring
      · rw [Nat.min_eq_right h]
        have hpow : (1 : Nat) ≤ 2 ^ k := Nat.one_le_two_pow
        have h1 : maxB ≤ maxB * 2 ^ k := Nat.le_mul_of_pos_right _ (by omega)
        have h2 : maxB ≤ b * 2 ^ (k + 1) := by
          have : b * 2 ≤ b * 2 * 2 ^ k := Nat.le_mul_of_pos_right _ (by omega)
          have heq : b * 2 * 2 ^ k = b * 2 ^ (k + 1) := by ring
          omega
        rw [Nat.min_eq_right h1, Nat.min_eq_right h2]

theorem send_chunk_sinkOk (cfg : CLSConfig) : send_chunk cfg sinkOk = ⟨1, [], true⟩ := rfl

theorem sendChunkGo_ok {cfg : CLSConfig} {sink : Nat → SinkResult}
    (fuel attempt backoff : Nat) (acc : List Nat) (hs : sink attempt = SinkResult.ok) :
    sendChunkGo cfg sink (fuel + 1) attempt backoff acc = ⟨attempt + 1, acc.reverse, true⟩ := by
  simp [sendChunkGo, hs]

theorem sendChunkGo_sinkErr_stop {cfg : CLSConfig} {sink : Nat → SinkResult}
    (fuel attempt backoff : Nat) (acc : List Nat) {c : String} {h : Bool} {st : Nat}
    (hs : sink attempt = SinkResult.sinkErr c h st)
    (hcond : retryableError c h st = false ∨ cfg.retries ≤ attempt) :
    sendChunkGo cfg sink (fuel + 1) attempt backoff acc = ⟨attempt + 1, acc.reverse, false⟩ := by
  simp only [sendChunkGo, hs]
  rw [if_pos hcond]

theorem sendChunkGo_sinkErr_retry {cfg : CLSConfig} {sink : Nat → SinkResult}
    (fuel attempt backoff : Nat) (acc : List Nat) {c : String} {h : Bool} {st : Nat}
    (hs : sink attempt = SinkResult.sinkErr c h st)
    (hr : retryableError c h st = true) (hlt : attempt < cfg.retries) :
    sendChunkGo cfg sink (fuel + 1) attempt backoff acc
      = sendChunkGo cfg sink fuel (attempt + 1)
          (min (backoff * 2) cfg.max_retry_backoff_ms) (backoff :: acc) := by
  have hcond : ¬(retryableError c h st = false ∨ cfg.retries ≤ attempt) := by
    rintro (hx | hx)
    · simp [hr] at hx
    · omega
  simp only [sendChunkGo, hs]
  rw [if_neg hcond]

theorem sendChunkGo_exc_stop {cfg : CLSConfig} {sink : Nat → SinkResult}
    (fuel attempt backoff : Nat) (acc : List Nat) (hs : sink attempt = SinkResult.exc)
    (hge : cfg.retries ≤ attempt) :
    sendChunkGo cfg sink (fuel + 1) attempt backoff acc = ⟨attempt + 1, acc.reverse, false⟩ := by
  simp only [sendChunkGo, hs]
  rw [if_pos hge]

theorem sendChunkGo_exc_retry {cfg : CLSConfig} {sink : Nat → SinkResult}
    (fuel attempt backoff : Nat) (acc : List Nat) (hs : sink attempt = SinkResult.exc)
    (hlt : attempt < cfg.retries) :
    sendChunkGo cfg sink (fuel + 1) attempt backoff acc
      = sendChunkGo cfg sink fuel (attempt + 1)
          (min (backoff * 2) cfg.max_retry_backoff_ms) (backoff :: acc) := by
  have hcond : ¬(cfg.retries ≤ attempt) := by omega
  simp only [sendChunkGo, hs]
  rw [if_neg hcond]

theorem sendChunkGo_all_retry (cfg : CLSConfig) (sink : Nat → SinkResult) (n : Nat) :
    ∀ (attempt b : Nat) (acc : List Nat), attempt + n = cfg.retries →
      (∀ k, attempt ≤ k → k ≤ cfg.retries → failsRetryably (sink k) = true) →
      sendChunkGo cfg sink (n + 1) attempt b acc
        = ⟨cfg.retries + 1, acc.reverse ++ backoffSeq cfg.max_retry_backoff_ms b n, false⟩ := by
  induction n with
  | zero =>
    intro attempt b acc ha hf
    have he : attempt = cfg.retries := by omega
    subst he
    have hk := hf cfg.retries le_rfl le_rfl
    cases hs : sink cfg.retries with
    | ok => simp [failsRetryably, hs] at hk
    | sinkErr c h st =>
      rw [sendChunkGo_sinkErr_stop 0 cfg.retries b acc hs (Or.inr le_rfl)]
      simp [backoffSeq]
    | exc =>
      rw [sendChunkGo_exc_stop 0 cfg.retries b acc hs le_rfl]
      simp [backoffSeq]
  | succ n ih =>
    intro attempt b acc ha hf
    have hlt : attempt < cfg.retries := by omega
    have hk := hf attempt le_rfl (by omega)
    have hrec := ih (attempt + 1) (min (b * 2) cfg.max_retry_backoff_ms) (b :: acc)
      (by omega) (fun k h1 h2 => hf k (by omega) h2)
    cases hs : sink attempt with
    | ok => simp [failsRetryably, hs] at hk
    | sinkErr c h st =>
      have hr : retryableError c h st = true := by simpa [failsRetryably, hs] using hk
      rw [sendChunkGo_sinkErr_retry (n + 1) attempt b acc hs hr hlt, hrec]
      simp [backoffSeq, List.append_assoc]
    | exc =>
      rw [sendChunkGo_exc_retry (n + 1) attempt b acc hs hlt, hrec]
      simp [backoffSeq, List.append_assoc]

theorem send_chunk_all_retry (cfg : CLSConfig) (sink : Nat → SinkResult)
    (hf : ∀ k, k ≤ cfg.retries → failsRetryably (sink k) = true) :
    send_chunk cfg sink
      = ⟨cfg.retries + 1,
         backoffSeq cfg.max_retry_backoff_ms cfg.base_retry_backoff_ms cfg.retries, false⟩ := by
  have := sendChunkGo_all_retry cfg sink cfg.retries 0 cfg.base_retry_backoff_ms []
    (by omega) (fun k _ h2 => hf k h2)
  simpa [send_chunk] using this

theorem sendChunkGo_nonretry (cfg : CLSConfig) (sink : Nat → SinkResult) (j : Nat)
    (hj : j ≤ cfg.retries) (hnr : nonRetryableSinkErr (sink j) = true) (n : Nat) :
    ∀ (fuel attempt b : Nat) (acc : List Nat), attempt + n = j → n < fuel →
      (∀ k, attempt ≤ k → k < j → failsRetryably (sink k) = true) →
      sendChunkGo cfg sink fuel attempt b acc
        = ⟨j + 1, acc.reverse ++ backoffSeq cfg.max_retry_backoff_ms b n, false⟩ := by
  induction n with
  | zero =>
    intro fuel attempt b acc ha hfuel hf
    have he : attempt = j := by omega
    subst he
    obtain ⟨fuel', rfl⟩ : ∃ f, fuel = f + 1 := ⟨fuel - 1, by omega⟩
    cases hs : sink attempt with
    | ok => simp [nonRetryableSinkErr, hs] at hnr
    | exc => simp [nonRetryableSinkErr, hs] at hnr
    | sinkErr c h st =>
      have hr : retryableError c h st = false := by
        simpa [nonRetryableSinkErr, hs] using hnr
      rw [sendChunkGo_sinkErr_stop fuel' attempt b acc hs (Or.inl hr)]
      simp [backoffSeq]
  | succ n ih =>
    intro fuel attempt b acc ha hfuel hf
    obtain ⟨fuel', rfl⟩ : ∃ f, fuel = f + 1 := ⟨fuel - 1, by omega⟩
    have hlt : attempt < j := by omega
    have hltr : attempt < cfg.retries := by omega
    have hk := hf attempt le_rfl hlt
    have hrec := ih fuel' (attempt + 1) (min (b * 2) cfg.max_retry_backoff_ms) (b :: acc)
      (by omega) (by omega) (fun k h1 h2 => hf k (by omega) h2)
    cases hs : sink attempt with
    | ok => simp [failsRetryably, hs] at hk
    | sinkErr c h st =>
      have hr : retryableError c h st = true := by simpa [failsRetryably, hs] using hk
      rw [sendChunkGo_sinkErr_retry fuel' attempt b acc hs hr hltr, hrec]
      simp [backoffSeq, List.append_assoc]
    | exc =>
      rw [sendChunkGo_exc_retry fuel' attempt b acc hs hltr, hrec]
      simp [backoffSeq, List.append_assoc]

theorem send_chunk_nonretry (cfg : CLSConfig) (sink : Nat → SinkResult) (j : Nat)
    (hj : j ≤ cfg.retries) (hnr : nonRetryableSinkErr (sink j) = true)
    (hf : ∀ k, k < j → failsRetryably (sink k) = true) :
    send_chunk cfg sink
      = ⟨j + 1,
         backoffSeq cfg.max_retry_backoff_ms cfg.base_retry_backoff_ms j, false⟩ := by
  have := sendChunkGo_nonretry cfg sink j hj hnr j (cfg.retries + 1) 0
    cfg.base_retry_backoff_ms [] (by omega) (by omega) (fun k _ h2 => hf k h2)
  simpa [send_chunk] using this

theorem foldl_dispatchStep_fields (cfg : CLSConfig) (sink : Nat → SinkResult) :
    ∀ (cs : List (List LogEntry)) (s : ProducerState),
      (cs.foldl (dispatchStep cfg sink) s).buffer = s.buffer
      ∧ (cs.foldl (dispatchStep cfg sink) s).buffer_size = s.buffer_size
      ∧ (cs.foldl (dispatchStep cfg sink) s).closed = s.closed
      ∧ (cs.foldl (dispatchStep cfg sink) s).accepted = s.accepted
      ∧ (cs.foldl (dispatchStep cfg sink) s).dispatched = s.dispatched ++ cs
      ∧ (cs.foldl (dispatchStep cfg sink) s).stats.drop_count = s.stats.drop_count := by
  intro cs
  induction cs with
  | nil => intro s; simp
  | cons c rest ih =>
    intro s
    have h := ih (dispatchStep cfg sink s c)
    simp only [List.foldl_cons]
    refine ⟨?_, ?_, ?_, ?_, ?_, ?_⟩
    · rw [h.1]; rfl
    · rw [h.2.1]; rfl
    · rw [h.2.2.1]; rfl
    · rw [h.2.2.2.1]; rfl
    · rw [h.2.2.2.2.1]
      show (s.dispatched ++ [c]) ++ rest = s.dispatched ++ (c :: rest)
      simp
    · rw [h.2.2.2.2.2]
      show (applyChunkStats c.length (send_chunk cfg sink) s.stats).drop_count
        = s.stats.drop_count
      unfold applyChunkStats incr_logs incr_success incr_fail
      split <;> rfl

theorem foldl_dispatchStep_ok_log (cfg : CLSConfig) :
    ∀ (cs : List (List LogEntry)) (s : ProducerState),
      (cs.foldl (dispatchStep cfg sinkOk) s).stats.log_count
        = s.stats.log_count + (cs.map List.length).sum := by
  intro cs
  induction cs with
  | nil => intro s; simp
  | cons c rest ih =>
    intro s
    simp only [List.foldl_cons, List.map_cons, List.sum_cons]
    rw [ih]
    show (applyChunkStats c.length (send_chunk cfg sinkOk) s.stats).log_count
        + (rest.map List.length).sum
      = s.stats.log_count + (c.length + (rest.map List.length).sum)
    rw [send_chunk_sinkOk]
    unfold applyChunkStats incr_logs incr_success
    simp
    omega

theorem send_batch_dispatched (cfg : CLSConfig) (sink : Nat → SinkResult)
    (entries : List LogEntry) (s : ProducerState) :
    (send_batch cfg sink entries s).dispatched
      = s.dispatched ++ chunksOf cfg.max_batch_count entries :=
  (foldl_dispatchStep_fields cfg sink _ s).2.2.2.2.1

theorem flush_eq (cfg : CLSConfig) (sink : Nat → SinkResult) (s : ProducerState) :
    flush cfg sink s
      = if s.buffer.isEmpty then s
        else send_batch cfg sink s.buffer { s with buffer := [], buffer_size := 0 } := by
  unfold flush drain_buffer
  by_cases hb : s.buffer.isEmpty
  · simp [hb]
  · simp [hb]

theorem flush_closed (cfg : CLSConfig) (sink : Nat → SinkResult) (s : ProducerState) :
    (flush cfg sink s).closed = s.closed := by
  rw [flush_eq]
  by_cases hb : s.buffer.isEmpty
  · rw [if_pos hb]
  · rw [if_neg hb]
    unfold send_batch
    rw [(foldl_dispatchStep_fields cfg sink _ _).2.2.1]

theorem flush_buffer (cfg : CLSConfig) (sink : Nat → SinkResult) (s : ProducerState) :
    (flush cfg sink s).buffer = [] := by
  rw [flush_eq]
  by_cases hb : s.buffer.isEmpty
  · rw [if_pos hb]
    exact List.isEmpty_iff.mp hb
  · rw [if_neg hb]
    unfold send_batch
    rw [(foldl_dispatchStep_fields cfg sink _ _).1]

theorem close_eq (cfg : CLSConfig) (sink : Nat → SinkResult) (s : ProducerState) :
    close cfg sink s
      = if s.closed then s else flush cfg sink { s with closed := true } := rfl

theorem close_close (cfg : CLSConfig) (sink : Nat → SinkResult) (s : ProducerState) :
    close cfg sink (close cfg sink s) = close cfg sink s := by
  have h2 : (close cfg sink s).closed = true := by
    by_cases hc : s.closed
    · rw [close_eq, if_pos hc]
      exact hc
    · rw [close_eq, if_neg hc, flush_closed]
  conv_lhs => rw [close_eq]
  rw [if_pos h2]

theorem mkLogEntry_size (ts : Nat) (f : List (String × String)) :
    (mkLogEntry ts f).size = entrySize f := by
  unfold mkLogEntry logEntryPostInit
  simp

theorem bufBytes_append_singleton (l : List LogEntry) (e : LogEntry) :
    bufBytes (l ++ [e]) = bufBytes l + e.size := by
  simp [bufBytes]

theorem send_cases (cfg : CLSConfig) (s : ProducerState)
    (f : List (String × String)) (ts : Nat) (hc : s.closed = false) :
    send cfg s f ts = (dropOne s, false)
    ∨ (send cfg s f ts
        = ({ s with buffer := s.buffer ++ [mkLogEntry ts f],
                    buffer_size := s.buffer_size + (mkLogEntry ts f).size,
                    accepted := s.accepted ++ [mkLogEntry ts f] }, true)
       ∧ s.buffer_size + (mkLogEntry ts f).size ≤ cfg.total_size_bytes) := by
  unfold send sendWith
  rw [if_neg (by simp [hc])]
  simp only
  by_cases hov : cfg.total_size_bytes < s.buffer_size + (mkLogEntry ts f).size
  · rw [if_pos hov]
    by_cases hb : cfg.max_block_sec ≤ 0
    · left
      rw [if_pos hb]
    · left
      rw [if_neg hb]
      rfl
  · right
    rw [if_neg hov]
    exact ⟨rfl, by omega⟩

/-- The accounting invariant of the sequential run model: the ghost histories
balance the stats counters and the live buffer. -/
def BufInv (s : ProducerState) (n : Nat) : Prop :=
  s.accepted.length + s.stats.drop_count = n
  ∧ s.dispatched.flatten ++ s.buffer = s.accepted
  ∧ s.stats.log_count = s.dispatched.flatten.length

theorem bufInv_init : BufInv initState 0 := by
  refine ⟨rfl, rfl, rfl⟩

theorem bufInv_send (cfg : CLSConfig) (s : ProducerState)
    (f : List (String × String)) (ts : Nat) (n : Nat)
    (hc : s.closed = false) (h : BufInv s n) :
    BufInv (send cfg s f ts).1 (n + 1) ∧ (send cfg s f ts).1.closed = false := by
  obtain ⟨h1, h2, h3⟩ := h
  rcases send_cases cfg s f ts hc with hcase | ⟨hcase, _⟩ <;> rw [hcase]
  · exact ⟨⟨by simp [dropOne, incr_drop]; omega, h2, h3⟩, hc⟩
  · refine ⟨⟨?_, ?_, h3⟩, hc⟩
    · simp only [List.length_append, List.length_cons, List.length_nil]
      omega
    · show s.dispatched.flatten ++ (s.buffer ++ [mkLogEntry ts f])
        = s.accepted ++ [mkLogEntry ts f]
      rw [← List.append_assoc, h2]

theorem bufInv_flush (cfg : CLSConfig) (s : ProducerState) (n : Nat)
    (hm : 0 < cfg.max_batch_count) (h : BufInv s n) :
    BufInv (flush cfg sinkOk s) n := by
  obtain ⟨h1, h2, h3⟩ := h
  rw [flush_eq]
  by_cases hb : s.buffer.isEmpty
  · rw [if_pos hb]
    exact ⟨h1, h2, h3⟩
  · rw [if_neg hb]
    set s2 : ProducerState := { s with buffer := [], buffer_size := 0 } with hs2
    have hfields := foldl_dispatchStep_fields cfg sinkOk
      (chunksOf cfg.max_batch_count s.buffer) s2
    have hlog := foldl_dispatchStep_ok_log cfg
      (chunksOf cfg.max_batch_count s.buffer) s2
    have hflat : (chunksOf cfg.max_batch_count s.buffer).flatten = s.buffer :=
      chunksOf_flatten _ hm _
    unfold send_batch
    refine ⟨?_, ?_, ?_⟩
    · rw [hfields.2.2.2.1, hfields.2.2.2.2.2]
      exact h1
    · rw [hfields.1, hfields.2.2.2.1, hfields.2.2.2.2.1, List.append_nil,
        List.flatten_append, hflat]
      exact h2
    · rw [hlog, hfields.2.2.2.2.1, List.flatten_append, List.length_append, h3,
        hflat, ← List.length_flatten, hflat]

theorem bufInv_runOps (cfg : CLSConfig) (hm : 0 < cfg.max_batch_count) :
    ∀ (ops : List Op) (s : ProducerState) (n : Nat),
      s.closed = false → BufInv s n →
      BufInv (runOps cfg sinkOk s ops) (n + countSends ops)
      ∧ (runOps cfg sinkOk s ops).closed = false := by
  intro ops
  induction ops with
  | nil =>
    intro s n hc h
    exact ⟨by simpa [runOps, countSends] using h, hc⟩
  | cons op rest ih =>
    cases op with
    | send f ts =>
      intro s n hc h
      have hs := bufInv_send cfg s f ts n hc h
      have := ih (send cfg s f ts).1 (n + 1) hs.2 hs.1
      constructor
      · have heq : n + 1 + countSends rest = n + countSends (Op.send f ts :: rest) := by
          simp [countSends]
          omega
        rw [← heq]
        exact this.1
      · exact this.2
    | flush =>
      intro s n hc h
      have hf := bufInv_flush cfg s n hm h
      have hcf : (flush cfg sinkOk s).closed = false := by
        rw [flush_closed]
        exact hc
      have := ih (flush cfg sinkOk s) n hcf hf
      exact ⟨by simpa [countSends] using this.1, this.2⟩

theorem close_final (cfg : CLSConfig) (hm : 0 < cfg.max_batch_count)
    (s : ProducerState) (n : Nat) (hc : s.closed = false) (h : BufInv s n) :
    (close cfg sinkOk s).stats.log_count + (close cfg sinkOk s).stats.drop_count = n
    ∧ (close cfg sinkOk s).dispatched.flatten = (close cfg sinkOk s).accepted := by
  rw [close_eq, if_neg (by simp [hc])]
  set s1 : ProducerState := { s with closed := true } with hs1
  have h1 : BufInv s1 n := h
  have hf := bufInv_flush cfg s1 n hm h1
  have hb : (flush cfg sinkOk s1).buffer = [] := flush_buffer cfg sinkOk s1
  obtain ⟨ha, hjoin, hlog⟩ := hf
  rw [hb, List.append_nil] at hjoin
  refine ⟨?_, hjoin⟩
  rw [hlog, hjoin]
  exact ha

/-
Concrete inputs used by the witnesses and counterexamples below.  All
configurations carry nonempty identity fields, as `CLSConfig.validate`
demands at producer construction.
-/

def cfgBase : CLSConfig :=
  { topic_id := "t", host := "h", secret_id := "id", secret_key := "key" }

def cfgC1 : CLSConfig := { cfgBase with retries := 2 }

/-- A sink failing every attempt with a non-retryable error: an unlisted code
and a response status below 500. -/
def sinkBadRequest : Nat → SinkResult := fun _ => SinkResult.sinkErr "BadRequest" true 400

/-- A sink raising a non-`LogException` exception on every attempt. -/
def sinkAlwaysExc : Nat → SinkResult := fun _ => SinkResult.exc

/-- A producer whose closed flag is set. -/
def closedState : ProducerState := { initState with closed := true }

/-
Claim C1.
-/

/-- Claim C1 counterexample: with retries = 2, a sink error whose code is not
one of the named retryable codes and whose response status is 400 (below
500) stops `_send_chunk` after a single attempt with no backoff sleep — not
after `retries + 1 = 3` attempts as a retryable failure (for contrast, a
non-sink exception does run all 3 attempts).  The uniform-retry claim is
false on this input. -/
theorem claim1_counterexample :
    (send_chunk cfgC1 sinkBadRequest).attempts = 1
    ∧ (send_chunk cfgC1 sinkBadRequest).sleeps = []
    ∧ cfgC1.retries + 1 = 3
    ∧ (send_chunk cfgC1 sinkBadRequest).attempts ≠ cfgC1.retries + 1
    ∧ (send_chunk cfgC1 sinkAlwaysExc).attempts = 3 := by
  refine ⟨rfl, rfl, rfl, by decide, rfl⟩

/-- Claim C1 (amended): in `_send_chunk`, a sink error that is not retryable
(code not named and response status below 500) stops delivery immediately
after the attempt on which it occurs — no further retries, the chunk fails —
while any non-sink exception is retried with backoff exactly like a
retryable sink error, stopping only when the attempt count is exhausted. -/
theorem claim1_amended (cfg : CLSConfig) (sinkA sinkB : Nat → SinkResult) (j : Nat)
    (hj : j ≤ cfg.retries)
    (hpre : ∀ k, k < j → failsRetryably (sinkA k) = true)
    (hnr : nonRetryableSinkErr (sinkA j) = true)
    (hexc : ∀ k, k ≤ cfg.retries → sinkB k = SinkResult.exc) :
    (send_chunk cfg sinkA).attempts = j + 1
    ∧ (send_chunk cfg sinkA).success = false
    ∧ (send_chunk cfg sinkB).attempts = cfg.retries + 1
    ∧ (send_chunk cfg sinkB).success = false
    ∧ (send_chunk cfg sinkB).sleeps
        = backoffSeq cfg.max_retry_backoff_ms cfg.base_retry_backoff_ms cfg.retries := by
  have hA := send_chunk_nonretry cfg sinkA j hj hnr hpre
  have hB := send_chunk_all_retry cfg sinkB (fun k hk => by rw [hexc k hk]; rfl)
  rw [hA, hB]
  exact ⟨rfl, rfl, rfl, rfl, rfl⟩

/-- Witness for the amended C1 at concrete inputs. -/
theorem claim1_witness :
    ((send_chunk cfgC1 sinkBadRequest).attempts = 0 + 1
      ∧ (send_chunk cfgC1 sinkBadRequest).success = false
      ∧ (send_chunk cfgC1 sinkAlwaysExc).attempts = cfgC1.retries + 1
      ∧ (send_chunk cfgC1 sinkAlwaysExc).success = false
      ∧ (send_chunk cfgC1 sinkAlwaysExc).sleeps
          = backoffSeq cfgC1.max_retry_backoff_ms cfgC1.base_retry_backoff_ms cfgC1.retries) :=
  claim1_amended cfgC1 sinkBadRequest sinkAlwaysExc 0 (by omega)
    (fun k hk => absurd hk (by omega)) (by decide) (fun k _ => rfl)

/-
Claim C2.
-/

/-- Claim C2 counterexample: on a closed producer, `send` returns false but
the drop counter stays 0 — it is not incremented by one as claimed. -/
theorem claim2_counterexample :
    (send cfgBase closedState [("k", "v")] 0).2 = false
    ∧ (send cfgBase closedState [("k", "v")] 0).1.stats.drop_count = 0
    ∧ (send cfgBase closedState [("k", "v")] 0).1.stats.drop_count
        ≠ closedState.stats.drop_count + 1 := by
  refine ⟨rfl, rfl, by decide⟩

/-- Claim C2 (amended): a `send` on a closed producer returns false
immediately and leaves the entire state — the drop counter included —
unchanged. -/
theorem claim2_amended (cfg : CLSConfig) (s : ProducerState)
    (f : List (String × String)) (ts : Nat) (wakes : List (List LogEntry × Nat))
    (hc : s.closed = true) :
    sendWith cfg s f ts wakes = (s, false) := by
  unfold sendWith
  rw [if_pos hc]

/-- Witness for the amended C2 at a concrete closed producer. -/
theorem claim2_witness :
    sendWith cfgBase closedState [("k", "v")] 0 [] = (closedState, false) :=
  claim2_amended cfgBase closedState [("k", "v")] 0 [] rfl

/-
Claim C3.
-/

/-- Claim C3: for every sequence of producer operations (sends interleaved
with arbitrary drain-and-dispatch passes) in which the Sink never fails,
after a final close the delivered-log counter plus the drop counter equals
the number of send calls issued, and the concatenation of the dispatched
chunks is exactly the sequence of accepted entries — each accepted entry in
exactly one chunk, in admission order, with no duplication and no loss.
Proved for every such run, within capacity or not, whenever
`max_batch_count` is positive (the default is 4096; a zero step makes the
Python slicing loop raise). -/
theorem claim3_accounting (cfg : CLSConfig) (hm : 0 < cfg.max_batch_count)
    (ops : List Op) :
    (close cfg sinkOk (runOps cfg sinkOk initState ops)).stats.log_count
      + (close cfg sinkOk (runOps cfg sinkOk initState ops)).stats.drop_count
      = countSends ops
    ∧ (close cfg sinkOk (runOps cfg sinkOk initState ops)).dispatched.flatten
      = (close cfg sinkOk (runOps cfg sinkOk initState ops)).accepted := by
  have hrun := bufInv_runOps cfg hm ops initState 0 rfl bufInv_init
  have hfin := close_final cfg hm _ (0 + countSends ops) hrun.2 hrun.1
  simpa using hfin

/-- A concrete operation sequence: three sends with a drain in between. -/
def opsC3 : List Op :=
  [Op.send [("a", "1")] 0, Op.send [("b", "22")] 1, Op.flush, Op.send [("c", "3")] 2]

/-- Witness for C3 on a concrete run. -/
theorem claim3_witness :
    0 < cfgBase.max_batch_count
    ∧ ((close cfgBase sinkOk (runOps cfgBase sinkOk initState opsC3)).stats.log_count
        + (close cfgBase sinkOk (runOps cfgBase sinkOk initState opsC3)).stats.drop_count
        = countSends opsC3
      ∧ (close cfgBase sinkOk (runOps cfgBase sinkOk initState opsC3)).dispatched.flatten
        = (close cfgBase sinkOk (runOps cfgBase sinkOk initState opsC3)).accepted) :=
  ⟨by decide, claim3_accounting cfgBase (by decide) opsC3⟩

/-
Claim C4.
-/

/-- Claim C4: for `retries + 1` consecutive retryable failures, `_send_chunk`
performs exactly `retries + 1` delivery attempts with `retries` backoff
sleeps in between; the sleep before retry k (0-indexed) equals
`min(base_retry_backoff * 2^k, max_retry_backoff)` and the sleep sequence is
non-decreasing — provided the configured base backoff does not exceed the
configured maximum (true of the defaults; the code never caps the very first
sleep). -/
theorem claim4_backoff (cfg : CLSConfig) (sink : Nat → SinkResult)
    (hb : cfg.base_retry_backoff_ms ≤ cfg.max_retry_backoff_ms)
    (hf : ∀ k, k ≤ cfg.retries → failsRetryably (sink k) = true) :
    (send_chunk cfg sink).attempts = cfg.retries + 1
    ∧ (send_chunk cfg sink).sleeps.length = cfg.retries
    ∧ (∀ k, k < cfg.retries →
        (send_chunk cfg sink).sleeps.getD k 0
          = min (cfg.base_retry_backoff_ms * 2 ^ k) cfg.max_retry_backoff_ms)
    ∧ (∀ i j, i ≤ j → j < cfg.retries →
        (send_chunk cfg sink).sleeps.getD i 0 ≤ (send_chunk cfg sink).sleeps.getD j 0) := by
  have h := send_chunk_all_retry cfg sink hf
  rw [h]
  refine ⟨rfl, backoffSeq_length _ _ _, ?_, ?_⟩
  · intro k hk
    exact backoffSeq_getD _ _ _ _ hb hk
  · intro i j hij hj
    rw [backoffSeq_getD _ _ _ _ hb (by omega), backoffSeq_getD _ _ _ _ hb hj]
    have hpow : 2 ^ i ≤ 2 ^ j := Nat.pow_le_pow_right (by omega) hij
    have hmul : cfg.base_retry_backoff_ms * 2 ^ i ≤ cfg.base_retry_backoff_ms * 2 ^ j :=
      Nat.mul_le_mul le_rfl hpow
    exact min_le_min hmul le_rfl

/-- Configuration exercising the backoff cap: 100, 200, 300 (capped). -/
def cfgC4 : CLSConfig :=
  { cfgBase with retries := 3, base_retry_backoff_ms := 100, max_retry_backoff_ms := 300 }

/-- Witness for C4: all four attempts fail with a non-sink exception; the
third sleep hits the cap. -/
theorem claim4_witness :
    cfgC4.base_retry_backoff_ms ≤ cfgC4.max_retry_backoff_ms
    ∧ (send_chunk cfgC4 sinkAlwaysExc).attempts = cfgC4.retries + 1
    ∧ (send_chunk cfgC4 sinkAlwaysExc).sleeps.getD 2 0
        = min (cfgC4.base_retry_backoff_ms * 2 ^ 2) cfgC4.max_retry_backoff_ms :=
  ⟨by decide,
   (claim4_backoff cfgC4 sinkAlwaysExc (by decide) (fun k _ => rfl)).1,
   (claim4_backoff cfgC4 sinkAlwaysExc (by decide) (fun k _ => rfl)).2.2.1 2 (by decide)⟩

/-
Claim C5.
-/

/-- Configuration of the C5 scenario: capacity 1000 bytes, non-blocking. -/
def cfgC5 : CLSConfig := { cfgBase with total_size_bytes := 1000, max_block_sec := 0 }

/-- Fields totalling exactly 400 bytes (ASCII, so bytes = characters). -/
def f400 : List (String × String) := [("", String.mk (List.replicate 400 'x'))]

/-- State after the first scenario send. -/
def c5s1 : ProducerState := (send cfgC5 initState f400 0).1

/-- State after the second scenario send. -/
def c5s2 : ProducerState := (send cfgC5 c5s1 f400 1).1

/-- State after the third scenario send. -/
def c5s3 : ProducerState := (send cfgC5 c5s2 f400 2).1

/-- Claim C5: with block duration zero, admission keeps the buffer byte
counter within capacity, and an entry that would overflow is rejected whole
(the only state change is one drop count, `send` returns false); in the
concrete scenario — capacity 1000, three 400-byte entries, no drain — the
first two are accepted (buffer at 800) and the third is dropped whole,
raising `drop_count` to 1. -/
theorem claim5_capacity :
    (∀ (cfg : CLSConfig) (s : ProducerState) (f : List (String × String)) (ts : Nat),
      cfg.max_block_sec ≤ 0 → s.buffer_size ≤ cfg.total_size_bytes →
      (send cfg s f ts).1.buffer_size ≤ cfg.total_size_bytes)
    ∧ (∀ (cfg : CLSConfig) (s : ProducerState) (f : List (String × String)) (ts : Nat),
      cfg.max_block_sec ≤ 0 → s.closed = false →
      cfg.total_size_bytes < s.buffer_size + entrySize f →
      send cfg s f ts = (dropOne s, false))
    ∧ ((send cfgC5 initState f400 0).2 = true ∧ c5s1.buffer_size = 400
      ∧ (send cfgC5 c5s1 f400 1).2 = true ∧ c5s2.buffer_size = 800
      ∧ (send cfgC5 c5s2 f400 2).2 = false ∧ c5s3.buffer_size = 800
      ∧ c5s3.stats.drop_count = 1 ∧ c5s3.buffer.length = 2) := by
  refine ⟨?_, ?_, ?_⟩
  · intro cfg s f ts hblock hcap
    by_cases hc : s.closed
    · unfold send sendWith
      rw [if_pos hc]
      exact hcap
    · rcases send_cases cfg s f ts (by simpa using hc) with hcase | ⟨hcase, hle⟩ <;>
        rw [hcase]
      · exact hcap
      · exact hle
  · intro cfg s f ts hblock hc hov
    have hov' : cfg.total_size_bytes < s.buffer_size + (mkLogEntry ts f).size := by
      rw [mkLogEntry_size]
      exact hov
    unfold send sendWith
    rw [if_neg (by simp [hc])]
    simp only
    rw [if_pos hov', if_pos hblock]
  · refine ⟨by decide, by decide, by decide, by decide, by decide, by decide,
      by decide, by decide⟩

/-- Witness for the universally quantified parts of C5, instantiated on the
scenario's third send. -/
theorem claim5_witness :
    (cfgC5.max_block_sec ≤ 0 ∧ c5s2.closed = false
      ∧ cfgC5.total_size_bytes < c5s2.buffer_size + entrySize f400)
    ∧ send cfgC5 c5s2 f400 2 = (dropOne c5s2, false)
    ∧ (send cfgC5 c5s2 f400 2).1.buffer_size ≤ cfgC5.total_size_bytes :=
  ⟨⟨by decide, by decide, by decide⟩,
   claim5_capacity.2.1 cfgC5 c5s2 f400 2 (by decide) (by decide) (by decide),
   claim5_capacity.1 cfgC5 c5s2 f400 2 (by decide) (by decide)⟩

/-
Claim C6.
-/

/-- The buffer size invariant: the byte counter equals the sum of the sizes
of the buffered entries. -/
def sizeInv (s : ProducerState) : Prop := bufBytes s.buffer = s.buffer_size

/-- Claim C6: the invariant `total_bytes = sum of entry sizes` holds for the
fresh producer and is preserved by every `send` (in both admission branches;
for a blocking admission the buffers exposed at wake-ups are those left by
drains, hence themselves consistent, which is the `hw` premise) and by every
drain. -/
theorem claim6_invariant :
    sizeInv initState
    ∧ (∀ (cfg : CLSConfig) (s : ProducerState) (f : List (String × String)) (ts : Nat)
        (wakes : List (List LogEntry × Nat)),
        (∀ w ∈ wakes, bufBytes w.1 = w.2) → sizeInv s →
        sizeInv (sendWith cfg s f ts wakes).1)
    ∧ (∀ s : ProducerState, sizeInv s → sizeInv (drain_buffer s).2) := by
  refine ⟨rfl, ?_, ?_⟩
  · intro cfg s f ts wakes hw hs
    have hs' : bufBytes s.buffer = s.buffer_size := hs
    unfold sendWith
    by_cases hc : s.closed
    · rw [if_pos hc]
      exact hs
    · rw [if_neg hc]
      simp only
      by_cases hov : cfg.total_size_bytes < s.buffer_size + (mkLogEntry ts f).size
      · rw [if_pos hov]
        by_cases hb : cfg.max_block_sec ≤ 0
        · rw [if_pos hb]
          exact hs
        · rw [if_neg hb]
          cases hbw : blockWait cfg.total_size_bytes (mkLogEntry ts f).size wakes with
          | none => exact hs
          | some w =>
            have hmem := blockWait_mem _ _ wakes w hbw
            have hww := hw w hmem
            show bufBytes (w.1 ++ [mkLogEntry ts f]) = w.2 + (mkLogEntry ts f).size
            rw [bufBytes_append_singleton, hww]
      · rw [if_neg hov]
        show bufBytes (s.buffer ++ [mkLogEntry ts f])
          = s.buffer_size + (mkLogEntry ts f).size
        rw [bufBytes_append_singleton, hs']
  · intro s hs
    unfold drain_buffer
    by_cases hb : s.buffer.isEmpty
    · rw [if_pos hb]
      exact hs
    · rw [if_neg hb]
      rfl

/-- Witness for C6 at a concrete admission. -/
theorem claim6_witness : sizeInv (sendWith cfgBase initState [("k", "v")] 0 []).1 :=
  claim6_invariant.2.1 cfgBase initState [("k", "v")] 0 []
    (fun w hw => absurd hw (List.not_mem_nil w)) rfl

/-
Claim C7.
-/

/-- Claim C7: the dispatcher splits a drained sequence into consecutive
chunks of at most `max_batch_count` entries each, covering it exactly and in
order, before any delivery (`send_batch` records precisely those chunks, in
order); in particular 5 entries with `max_batch_count = 2` give the three
chunks of sizes 2, 2, 1 in the original order. -/
theorem claim7_chunking (cfg : CLSConfig) (sink : Nat → SinkResult)
    (s : ProducerState) (entries : List LogEntry)
    (hm : 0 < cfg.max_batch_count) (e1 e2 e3 e4 e5 : LogEntry) :
    (chunksOf cfg.max_batch_count entries).flatten = entries
    ∧ (∀ c ∈ chunksOf cfg.max_batch_count entries, c.length ≤ cfg.max_batch_count)
    ∧ (send_batch cfg sink entries s).dispatched
        = s.dispatched ++ chunksOf cfg.max_batch_count entries
    ∧ chunksOf 2 [e1, e2, e3, e4, e5] = [[e1, e2], [e3, e4], [e5]] := by
  refine ⟨chunksOf_flatten _ hm _, fun c hc => chunksOf_mem_length _ _ _ hc,
    send_batch_dispatched cfg sink entries s, ?_⟩
  rfl

/-- Configuration of the C7 scenario. -/
def cfgC7 : CLSConfig := { cfgBase with max_batch_count := 2 }

/-- Five concrete entries. -/
def entsC7 : List LogEntry :=
  [mkLogEntry 0 [("n", "1")], mkLogEntry 1 [("n", "2")], mkLogEntry 2 [("n", "3")],
   mkLogEntry 3 [("n", "4")], mkLogEntry 4 [("n", "5")]]

/-- Witness for C7 on the five-entry scenario. -/
theorem claim7_witness :
    0 < cfgC7.max_batch_count
    ∧ (chunksOf cfgC7.max_batch_count entsC7).flatten = entsC7
    ∧ (send_batch cfgC7 sinkOk entsC7 initState).dispatched
        = initState.dispatched ++ chunksOf cfgC7.max_batch_count entsC7
    ∧ (chunksOf cfgC7.max_batch_count entsC7).map List.length = [2, 2, 1] :=
  ⟨by decide,
   (claim7_chunking cfgC7 sinkOk initState entsC7 (by decide)
     (mkLogEntry 0 []) (mkLogEntry 0 []) (mkLogEntry 0 [])
     (mkLogEntry 0 []) (mkLogEntry 0 [])).1,
   (claim7_chunking cfgC7 sinkOk initState entsC7 (by decide)
     (mkLogEntry 0 []) (mkLogEntry 0 []) (mkLogEntry 0 [])
     (mkLogEntry 0 []) (mkLogEntry 0 [])).2.2.1,
   by decide⟩

/-
Claim C8.
-/

/-- Claim C8 counterexample: for a field key of a single non-ASCII character
the constructed size is the code-point count (1), not the UTF-8 byte length
(2): Python `len` counts code points, never bytes. -/
theorem claim8_counterexample :
    (mkLogEntry 0 [("é", "")]).size = 1
    ∧ entrySizeBytesSpec [("é", "")] = 2
    ∧ (mkLogEntry 0 [("é", "")]).size ≠ entrySizeBytesSpec [("é", "")] := by
  refine ⟨by decide, by decide, by decide⟩

/-- Claim C8 (amended): the size field is computed exactly once at
construction as the sum over fields of the character (code point) counts of
key and value — the code's estimate of the byte size, exact only for
single-byte characters — and the post-init recomputes nothing when the size
is already nonzero. -/
theorem claim8_amended :
    (∀ (ts : Nat) (f : List (String × String)), (mkLogEntry ts f).size = entrySize f)
    ∧ (∀ e : LogEntry, e.size ≠ 0 → logEntryPostInit e = e) := by
  constructor
  · intro ts f
    exact mkLogEntry_size ts f
  · intro e he
    unfold logEntryPostInit
    rw [if_neg he]

/-- Witness for the amended C8. -/
theorem claim8_witness :
    (mkLogEntry 0 [("k", "vv")]).size = entrySize [("k", "vv")]
    ∧ logEntryPostInit ⟨0, [], 7⟩ = (⟨0, [], 7⟩ : LogEntry) :=
  ⟨claim8_amended.1 0 [("k", "vv")], claim8_amended.2 ⟨0, [], 7⟩ (by decide)⟩

/-
Claim C9.
-/

/-- Claim C9: `close` is idempotent — whatever the state and however the
sink behaves, closing twice produces exactly the state (stats included) of
closing once; the second call is a no-op. -/
theorem claim9_idempotent (cfg : CLSConfig) (sink : Nat → SinkResult)
    (s : ProducerState) :
    close cfg sink (close cfg sink s) = close cfg sink s :=
  close_close cfg sink s

/-
Claim C10.
-/

/-- Claim C10: an entry whose own size exceeds the configured capacity can
never be admitted: with block duration zero it is dropped immediately, and
with a positive block duration every wake-up re-check fails — whatever
buffers concurrent drains expose — so the wait runs to its deadline and the
entry is dropped; either way `send` returns false and increments the drop
counter by one, leaving the rest of the state unchanged. -/
theorem claim10_oversized (cfg : CLSConfig) (s : ProducerState)
    (f : List (String × String)) (ts : Nat) (wakes : List (List LogEntry × Nat))
    (hc : s.closed = false) (hsz : cfg.total_size_bytes < entrySize f) :
    sendWith cfg s f ts wakes = (dropOne s, false) := by
  have hsz' : cfg.total_size_bytes < (mkLogEntry ts f).size := by
    rw [mkLogEntry_size]
    exact hsz
  have hov : cfg.total_size_bytes < s.buffer_size + (mkLogEntry ts f).size := by omega
  unfold sendWith
  rw [if_neg (by simp [hc])]
  simp only
  rw [if_pos hov]
  by_cases hb : cfg.max_block_sec ≤ 0
  · rw [if_pos hb]
  · rw [if_neg hb, blockWait_none_of_oversize _ _ hsz' wakes]

/-- Configuration of the C10 witness: capacity 10 bytes, blocking mode. -/
def cfgC10 : CLSConfig := { cfgBase with total_size_bytes := 10, max_block_sec := 5 }

/-- Witness for C10: a 12-byte entry against capacity 10 in blocking mode,
with a wake-up exposing an empty buffer, is still dropped. -/
theorem claim10_witness :
    (initState.closed = false
      ∧ cfgC10.total_size_bytes < entrySize [("k", "0123456789a")])
    ∧ sendWith cfgC10 initState [("k", "0123456789a")] 0 [([], 0)]
        = (dropOne initState, false) :=
  ⟨⟨rfl, by decide⟩,
   claim10_oversized cfgC10 initState [("k", "0123456789a")] 0 [([], 0)] rfl (by decide)⟩

end ScfLog
